import Mathlib

set_option maxRecDepth 40000

/-!
Verification of the change-detection and scheduling core of the Kimp
Grow-a-Garden auto-poster.

The repository consists of several near-duplicate variants of one script.
This file embeds, as executable Lean definitions, the functions the claims
are about:

* `hashData` (SHA-256 of `JSON.stringify`-serialized data, hex digest),
* `loadHash` (persisted fingerprint, empty string when the file is absent),
* `cleanStockForHashing` (drops top-level and per-category `updated_at`),
* `parseCountdown` (regex `(\d+)h\s+(\d+)m\s+(\d+)s` to milliseconds),
* `postToFacebook` retry loop (3 attempts, linear backoff, rethrows),
* `checkAndPost` in its WebSocket/cron variant (`src/index.js`) and in its
  HTTP adaptive variant (`src/unnamed/part_001` / `part_003`),
* `getDelayToNext5MinutePH` (unguarded and guarded variants),
* `getDailyTip` (rotating daily tip with per-day reset).

JSON values are modelled by `JVal` with insertion-ordered object fields,
mirroring how V8 preserves property insertion order in `JSON.stringify`.
-/

/-! ## SHA-256 (executable embedding of node's crypto sha256 hex digest) -/

def w32 (x : Nat) : Nat := x % 4294967296

def add32 (a b : Nat) : Nat := (a + b) % 4294967296

def rotr32 (x n : Nat) : Nat :=
  w32 (Nat.lor (Nat.shiftRight x n) (Nat.shiftLeft x (32 - n)))

def xor3 (a b c : Nat) : Nat := Nat.xor (Nat.xor a b) c

def smallSigma0 (x : Nat) : Nat := xor3 (rotr32 x 7) (rotr32 x 18) (Nat.shiftRight x 3)

def smallSigma1 (x : Nat) : Nat := xor3 (rotr32 x 17) (rotr32 x 19) (Nat.shiftRight x 10)

def bigSigma0 (x : Nat) : Nat := xor3 (rotr32 x 2) (rotr32 x 13) (rotr32 x 22)

def bigSigma1 (x : Nat) : Nat := xor3 (rotr32 x 6) (rotr32 x 11) (rotr32 x 25)

def chFn (e f g : Nat) : Nat :=
  Nat.xor (Nat.land e f) (Nat.land (Nat.xor e 4294967295) g)

def majFn (a b c : Nat) : Nat :=
  Nat.xor (Nat.xor (Nat.land a b) (Nat.land a c)) (Nat.land b c)

/-- The 64 SHA-256 round constants (FIPS 180-4), written in decimal. -/
def sha256K : List Nat :=
  [1116352408, 1899447441, 3049323471, 3921009573, 961987163, 1508970993,
   2453635748, 2870763221, 3624381080, 310598401, 607225278, 1426881987,
   1925078388, 2162078206, 2614888103, 3248222580, 3835390401, 4022224774,
   264347078, 604807628, 770255983, 1249150122, 1555081692, 1996064986,
   2554220882, 2821834349, 2952996808, 3210313671, 3336571891, 3584528711,
   113926993, 338241895, 666307205, 773529912, 1294757372, 1396182291,
   1695183700, 1986661051, 2177026350, 2456956037, 2730485921, 2820302411,
   3259730800, 3345764771, 3516065817, 3600352804, 4094571909, 275423344,
   430227734, 506948616, 659060556, 883997877, 958139571, 1322822218,
   1537002063, 1747873779, 1955562222, 2024104815, 2227730452, 2361852424,
   2428436474, 2756734187, 3204031479, 3329325298]

structure Hash8 where
  v0 : Nat
  v1 : Nat
  v2 : Nat
  v3 : Nat
  v4 : Nat
  v5 : Nat
  v6 : Nat
  v7 : Nat
  deriving DecidableEq

/-- The initial SHA-256 state (FIPS 180-4), written in decimal. -/
def sha256Init : Hash8 :=
  ⟨1779033703, 3144134277, 1013904242, 2773480762,
   1359893119, 2600822924, 528734635, 1541459225⟩

def roundStep (st : Hash8) (kw : Nat × Nat) : Hash8 :=
  let t1 := add32 (add32 (add32 st.v7 (bigSigma1 st.v4)) (add32 (chFn st.v4 st.v5 st.v6) kw.1)) kw.2
  let t2 := add32 (bigSigma0 st.v0) (majFn st.v0 st.v1 st.v2)
  ⟨add32 t1 t2, st.v0, st.v1, st.v2, add32 st.v3 t1, st.v4, st.v5, st.v6⟩

def word32At (bs : List Nat) (i : Nat) : Nat :=
  ((bs.getD (4 * i) 0) <<< 24) + ((bs.getD (4 * i + 1) 0) <<< 16) +
    ((bs.getD (4 * i + 2) 0) <<< 8) + bs.getD (4 * i + 3) 0

def initialSchedule (block : List Nat) : List Nat :=
  (List.range 16).map (word32At block)

def extendSchedule : List Nat → Nat → List Nat
  | ws, 0 => ws
  | ws, n + 1 =>
    let t := ws.length
    let next := add32 (add32 (smallSigma1 (ws.getD (t - 2) 0)) (ws.getD (t - 7) 0))
                      (add32 (smallSigma0 (ws.getD (t - 15) 0)) (ws.getD (t - 16) 0))
    extendSchedule (ws ++ [next]) n

def compressBlock (st : Hash8) (block : List Nat) : Hash8 :=
  let ws := extendSchedule (initialSchedule block) 48
  let f := (sha256K.zip ws).foldl roundStep st
  ⟨add32 st.v0 f.v0, add32 st.v1 f.v1, add32 st.v2 f.v2, add32 st.v3 f.v3,
   add32 st.v4 f.v4, add32 st.v5 f.v5, add32 st.v6 f.v6, add32 st.v7 f.v7⟩

def be64 (n : Nat) : List Nat :=
  [(n >>> 56) % 256, (n >>> 48) % 256, (n >>> 40) % 256, (n >>> 32) % 256,
   (n >>> 24) % 256, (n >>> 16) % 256, (n >>> 8) % 256, n % 256]

def padMessage (bs : List Nat) : List Nat :=
  bs ++ 0x80 :: (List.replicate ((119 - bs.length % 64) % 64) 0 ++ be64 (8 * bs.length))

/-- Folds `compressBlock` over the 64-byte blocks of `bs`. The fuel
argument (instantiated with `bs.length`, an upper bound on the number of
blocks) only makes the recursion structural. -/
def sha256Blocks (st : Hash8) : Nat → List Nat → Hash8
  | 0, _ => st
  | _, [] => st
  | fuel + 1, bs => sha256Blocks (compressBlock st (bs.take 64)) fuel (bs.drop 64)

def hexDigit (n : Nat) : Char := Char.ofNat (if n < 10 then 48 + n else 87 + n)

def wordHex (w : Nat) : String :=
  String.mk [hexDigit ((w >>> 28) % 16), hexDigit ((w >>> 24) % 16), hexDigit ((w >>> 20) % 16),
             hexDigit ((w >>> 16) % 16), hexDigit ((w >>> 12) % 16), hexDigit ((w >>> 8) % 16),
             hexDigit ((w >>> 4) % 16), hexDigit (w % 16)]

def sha256Hex (bs : List Nat) : String :=
  let st := sha256Blocks sha256Init (padMessage bs).length (padMessage bs)
  wordHex st.v0 ++ wordHex st.v1 ++ wordHex st.v2 ++ wordHex st.v3 ++
    wordHex st.v4 ++ wordHex st.v5 ++ wordHex st.v6 ++ wordHex st.v7

/-- UTF-8 encoding of one scalar value, as node's Buffer encodes a JS string. -/
def utf8Encode (c : Char) : List Nat :=
  let n := c.toNat
  if n < 128 then [n]
  else if n < 2048 then [192 + n / 64, 128 + n % 64]
  else if n < 65536 then [224 + n / 4096, 128 + (n / 64) % 64, 128 + n % 64]
  else [240 + n / 262144, 128 + (n / 4096) % 64, 128 + (n / 64) % 64, 128 + n % 64]

def utf8Bytes (s : String) : List Nat :=
  s.data.foldr (fun c acc => utf8Encode c ++ acc) []

/-! ## JSON values and `JSON.stringify`

Object fields are an insertion-ordered association list, mirroring V8's
property order as seen by `JSON.stringify`. Objects produced by
`JSON.parse` (all snapshots handled by the script) have pairwise distinct
keys. -/

inductive JVal where
  | null
  | bool (b : Bool)
  | num (n : Int)
  | str (s : String)
  | arr (xs : List JVal)
  | obj (fs : List (String × JVal))

/-- JSON string escaping as performed by `JSON.stringify` for the
characters that can occur in the repository's data (quote, backslash,
ASCII control characters; other characters are emitted literally). -/
def jsonEscapeChar (c : Char) : String :=
  if c = '"' then "\\\""
  else if c = '\\' then "\\\\"
  else if c.toNat = 8 then "\\b"
  else if c.toNat = 9 then "\\t"
  else if c.toNat = 10 then "\\n"
  else if c.toNat = 12 then "\\f"
  else if c.toNat = 13 then "\\r"
  else if c.toNat < 16 then "\\u000" ++ String.mk [hexDigit c.toNat]
  else if c.toNat < 32 then "\\u00" ++ String.mk [hexDigit (c.toNat / 16), hexDigit (c.toNat % 16)]
  else String.mk [c]

def quoteJson (s : String) : String :=
  "\"" ++ s.data.foldr (fun c acc => jsonEscapeChar c ++ acc) "" ++ "\""

mutual

/-- Embeds `JSON.stringify` (no spacing argument): the serialization that
`hashData` digests. -/
def stringify : JVal → String
  | .null => "null"
  | .bool true => "true"
  | .bool false => "false"
  | .num n => toString n
  | .str s => quoteJson s
  | .arr xs => "[" ++ stringifyList xs ++ "]"
  | .obj fs => "\x7b" ++ stringifyFields fs ++ "\x7d"

def stringifyList : List JVal → String
  | [] => ""
  | [x] => stringify x
  | x :: y :: xs => stringify x ++ "," ++ stringifyList (y :: xs)

def stringifyFields : List (String × JVal) → String
  | [] => ""
  | [(k, v)] => quoteJson k ++ ":" ++ stringify v
  | (k, v) :: f :: fs => quoteJson k ++ ":" ++ stringify v ++ "," ++ stringifyFields (f :: fs)

end

/-! ## Hash helpers (`hashData`, `loadHash`) -/

/-- Embeds `hashData(data)`:
`crypto.createHash("sha256").update(JSON.stringify(data)).digest("hex")`. -/
def hashData (v : JVal) : String := sha256Hex (utf8Bytes (stringify v))

/-- Embeds `loadHash(file)`: the file contents when the hash file exists,
the empty string otherwise. The file system cell is modelled as
`Option String` (`none` = file absent). -/
def loadHash (file : Option String) : String := file.getD ""

/-! ## Data normalizer (`cleanStockForHashing`) -/

/-- Embeds `delete clone.updated_at` at one object level. `JSON.parse`
output has pairwise distinct keys, so removing every occurrence of the
key coincides with JS property deletion. -/
def removeUpdatedAt (fs : List (String × JVal)) : List (String × JVal) :=
  fs.filter (fun p => p.1 != "updated_at")

/-- Embeds the body of the `for` loop of `cleanStockForHashing`:
`delete clone[key]?.updated_at` removes the key when the value is an
object and leaves any other value untouched. -/
def cleanValue : JVal → JVal
  | .obj g => .obj (removeUpdatedAt g)
  | v => v

/-- Embeds `cleanStockForHashing(stock)` from `src/unnamed/part_001`
(`part_003`, and the later copies): deep-clone via
`JSON.parse(JSON.stringify(stock))` (the identity on JSON values), then
delete the top-level `updated_at` and each remaining top-level value's
`updated_at`. -/
def cleanStockForHashing : JVal → JVal
  | .obj fs => .obj ((removeUpdatedAt fs).map (fun p => (p.1, cleanValue p.2)))
  | v => v

/-! ## `parseCountdown` and its regex `(\d+)h\s+(\d+)m\s+(\d+)s`

The regex engine scans for the leftmost match; at each candidate start the
greedy `\d+` / `\s+` runs cannot backtrack usefully (shrinking a digit run
leaves a digit before `h`), so maximal-run scanning is an exact model. -/

def isDigitChar (c : Char) : Bool := 48 ≤ c.toNat && c.toNat ≤ 57

/-- JS `\s` for the character repertoire appearing in countdown strings
(space, tab, line feed, vertical tab, form feed, carriage return,
no-break space). -/
def isSpaceJS (c : Char) : Bool :=
  c.toNat = 32 || c.toNat = 9 || c.toNat = 10 || c.toNat = 11 ||
    c.toNat = 12 || c.toNat = 13 || c.toNat = 160

def digitsToNat (ds : List Char) : Nat :=
  ds.foldl (fun a c => a * 10 + (c.toNat - 48)) 0

/-- One attempt of the regex at a fixed start position: a maximal digit
run, the literal `h`, a maximal nonempty whitespace run, digits, `m`,
whitespace, digits, `s`. -/
def tryMatchAt (cs : List Char) : Option (Nat × Nat × Nat) :=
  let d1 := cs.takeWhile isDigitChar
  let r1 := cs.dropWhile isDigitChar
  if d1.isEmpty then none
  else match r1 with
    | [] => none
    | c1 :: r2 =>
      if c1 = 'h' then
        let sp1 := r2.takeWhile isSpaceJS
        let r3 := r2.dropWhile isSpaceJS
        if sp1.isEmpty then none
        else
          let d2 := r3.takeWhile isDigitChar
          let r4 := r3.dropWhile isDigitChar
          if d2.isEmpty then none
          else match r4 with
            | [] => none
            | c2 :: r5 =>
              if c2 = 'm' then
                let sp2 := r5.takeWhile isSpaceJS
                let r6 := r5.dropWhile isSpaceJS
                if sp2.isEmpty then none
                else
                  let d3 := r6.takeWhile isDigitChar
                  let r7 := r6.dropWhile isDigitChar
                  if d3.isEmpty then none
                  else match r7 with
                    | [] => none
                    | c3 :: _ =>
                      if c3 = 's' then
                        some (digitsToNat d1, digitsToNat d2, digitsToNat d3)
                      else none
              else none
      else none

/-- Leftmost unanchored search, as `String.prototype.match`. -/
def findCountdown : List Char → Option (Nat × Nat × Nat)
  | [] => none
  | c :: cs =>
    match tryMatchAt (c :: cs) with
    | some r => some r
    | none => findCountdown cs

/-- Embeds `parseCountdown(countdown)`: `0` for `undefined`/`null`/no
match (`none` models a missing or nullish countdown; the
`if (!countdown) return 0` guard of the `src/index.js` copy and the
`countdown?.match` guard of the other copies agree on every input), else
`(h * 3600 + m * 60 + s) * 1000`. The result is an `Int` because the JS
value is an ordinary number. -/
def parseCountdown (countdown : Option String) : Int :=
  match countdown with
  | none => 0
  | some s =>
    match findCountdown s.data with
    | none => 0
    | some (h, m, sec) => ((h * 3600 + m * 60 + sec) * 1000 : Nat)

/-! ## Snapshot field access -/

def lookupField : List (String × JVal) → String → Option JVal
  | [], _ => none
  | (k, v) :: fs, key => if k = key then some v else lookupField fs key

/-- Embeds `stock.<cat>?.countdown`: `none` when the category is missing,
is not an object, or carries no string countdown. -/
def getCategoryCountdown (stock : JVal) (cat : String) : Option String :=
  match stock with
  | .obj fs =>
    match lookupField fs cat with
    | some (.obj g) =>
      match lookupField g "countdown" with
      | some (.str s) => some s
      | _ => none
    | _ => none
  | _ => none

/-- The five per-category parses, in source order (egg, gear, seed, honey,
cosmetics). -/
def categoryCountdowns (stock : JVal) : List Int :=
  [parseCountdown (getCategoryCountdown stock "egg"),
   parseCountdown (getCategoryCountdown stock "gear"),
   parseCountdown (getCategoryCountdown stock "seed"),
   parseCountdown (getCategoryCountdown stock "honey"),
   parseCountdown (getCategoryCountdown stock "cosmetics")]

/-- Embeds `.filter(ms => ms > 0)`. -/
def positiveCountdowns (stock : JVal) : List Int :=
  (categoryCountdowns stock).filter (fun ms => decide (0 < ms))

/-- Embeds the spread `Math.min` call for the nonempty lists it is
applied to. -/
def minList : List Int → Int
  | [] => 0
  | x :: xs => xs.foldl min x

/-! ## Publisher retry loop (`postToFacebook` of `src/index.js`) -/

structure FBRun where
  attempts : Nat
  waits : List Nat
  throws : Bool
  deriving DecidableEq

/-- Embeds the `for (let i = 0; i < retries; i++)` loop of
`postToFacebook(message, retries = 3)` in `src/index.js`: attempt `i`
succeeds when `outcome i` is `true` and the loop returns; on failure the
last attempt (`i === retries - 1`) rethrows, otherwise the loop sleeps
`2000 * (i + 1)` ms and retries. -/
def postToFacebookLoop (outcome : Nat → Bool) : Nat → Nat → FBRun
  | _, 0 => ⟨0, [], false⟩
  | i, r + 1 =>
    if outcome i then ⟨1, [], false⟩
    else if r = 0 then ⟨1, [], true⟩
    else
      let rest := postToFacebookLoop outcome (i + 1) r
      ⟨rest.attempts + 1, 2000 * (i + 1) :: rest.waits, rest.throws⟩

/-- Every call site uses the default `retries = 3`. -/
def postToFacebook (outcome : Nat → Bool) : FBRun :=
  postToFacebookLoop outcome 0 3

/-! ## Cycle models

`checkAndPostWS` embeds `checkAndPost` of `src/index.js` (WebSocket
fetch, cron scheduling, retrying publisher that rethrows on exhaustion).
`checkAndPostHTTP` embeds `checkAndPost` of `src/unnamed/part_001` and
`part_003` (HTTP fetch, adaptive interval, publisher that catches its own
errors and always returns normally). Network outcomes are inputs:
`stockRes` is the fetch result, `outcome i` whether publish attempt `i`
succeeds, `tokenThrows`/`tokenOk`/`hasImage` the token-exchange and
attachment environment, and `store` the hash file (`none` = absent). -/

structure CycleWS where
  composed : Bool
  posted : Bool
  store : Option String
  deriving DecidableEq

def checkAndPostWS (stockRes : Except Unit JVal) (weather : JVal)
    (tokenThrows tokenOk hasImage : Bool) (outcome : Nat → Bool)
    (store : Option String) : CycleWS :=
  match stockRes with
  | .error _ => ⟨false, false, store⟩
  | .ok stock =>
    let hash := hashData (.obj [("stock", stock), ("weather", weather)])
    if hash = loadHash store then ⟨false, false, store⟩
    else if tokenThrows then ⟨true, false, store⟩
    else if !tokenOk || !hasImage then ⟨true, false, some hash⟩
    else if (postToFacebook outcome).throws then ⟨true, false, store⟩
    else ⟨true, true, some hash⟩

structure CycleHTTP where
  interval : Int
  attempted : Bool
  postSucceeded : Bool
  store : Option String
  deriving DecidableEq

def checkAndPostHTTP (stockRes : Except Unit JVal) (tokenOk hasImage postOk : Bool)
    (store : Option String) : CycleHTTP :=
  match stockRes with
  | .error _ => ⟨30000, false, false, store⟩
  | .ok stock =>
    let countdowns := positiveCountdowns stock
    if countdowns.isEmpty then ⟨1000, false, false, store⟩
    else
      let nextCheckInterval := minList countdowns + 1000
      let stockHash := hashData (cleanStockForHashing stock)
      if stockHash = loadHash store then ⟨nextCheckInterval, false, false, store⟩
      else ⟨nextCheckInterval, true, tokenOk && hasImage && postOk, some stockHash⟩

/-! ## Scheduler delay (`getDelayToNext5MinutePH`)

The source computes
`new Date(new Date().toLocaleString("en-US", defaults with timeZone "Asia/Manila"))`.
A default `en-US` locale string carries the time only down to whole
seconds, so the re-parsed `Date` always reports `getMilliseconds() = 0`;
`_msTrue` is the wall clock's real millisecond component, which the code
discards. -/

def getDelayToNext5MinutePH (minutes seconds _msTrue : Nat) : Int :=
  let ms : Int := 0
  let minutesToNext : Int := (5 : Int) - (minutes % 5 : Nat)
  (minutesToNext * 60 - seconds) * 1000 - ms

/-- The guarded copies (`src/unnamed/part_000` lines 353-361 and its
twins) add `return delayMs === 0 ? 5 * 60 * 1000 : delayMs`. -/
def getDelayToNext5MinutePHGuarded (minutes seconds _msTrue : Nat) : Int :=
  let ms : Int := 0
  let next : Int := (5 : Int) - (minutes % 5 : Nat)
  let delayMs := next * 60 * 1000 - seconds * 1000 - ms
  if delayMs = 0 then 5 * 60 * 1000 else delayMs

/-! ## Daily tip (`getDailyTip`)

`tips` is the parsed `tips.json`, `used` the list recorded for today in
`shown_tips.json`, `rand n` models `Math.floor(Math.random() * n)` (always
`< n` for `n > 0`), and the fuel argument bounds the recursion depth: the
source recurses after clearing today's record when every tip is used up.
The source returns the selected tip prefixed with a pin emoji. -/

def getDailyTip (tips : List String) (rand : Nat → Nat) :
    List String → Nat → Option (String × List String)
  | _, 0 => none
  | used, fuel + 1 =>
    let available := tips.filter (fun tip => !(used.contains tip))
    if available.isEmpty then getDailyTip tips rand [] fuel
    else
      let selected := available.getD (rand available.length) ""
      some ("📌 " ++ selected, used ++ [selected])

/-! ## Snapshots agreeing up to `updated_at` noise

`tsFields1 fs fs'` says the two (top-level) field lists have the same keys
in the same order and equal values, except that values at key
`updated_at` — at the top level or directly inside a category object —
may differ arbitrarily. -/

def tsFields2 : List (String × JVal) → List (String × JVal) → Prop
  | [], [] => True
  | (k, v) :: fs, (k', v') :: fs' =>
    k = k' ∧ (k = "updated_at" ∨ v = v') ∧ tsFields2 fs fs'
  | _, _ => False

/-- Two category values agree up to their own `updated_at` field: equal
outright, or both objects with `tsFields2`-agreeing fields. -/
def tsValue : JVal → JVal → Prop
  | .obj g, .obj g' => tsFields2 g g'
  | a, b => a = b

def tsFields1 : List (String × JVal) → List (String × JVal) → Prop
  | [], [] => True
  | (k, v) :: fs, (k', v') :: fs' =>
    k = k' ∧ (k = "updated_at" ∨ tsValue v v') ∧ tsFields1 fs fs'
  | _, _ => False

/-! ## Concrete snapshots used by witnesses and counterexamples -/

/-- A small snapshot with one live category countdown. -/
def exStockA : JVal :=
  .obj [("gear", .obj [("countdown", .str "1h 0m 0s"), ("items", .arr [.str "x"])])]

/-- A snapshot whose only countdown text is already expired, so every
parsed countdown is zero. -/
def exStockExpired : JVal :=
  .obj [("gear", .obj [("countdown", .str "0h 0m 0s"), ("items", .arr [.str "x"])])]

/-- A snapshot with a mixed countdown profile: the egg countdown is
expired (parses to 0) while the gear countdown is one hour. -/
def exStockMixed : JVal :=
  .obj [("egg", .obj [("countdown", .str "0h 0m 0s"), ("items", .arr [.str "x"])]),
        ("gear", .obj [("countdown", .str "1h 0m 0s"), ("items", .arr [.str "y"])])]

def permFieldsA : List (String × JVal) := [("a", .num 1), ("b", .num 2)]

def permFieldsB : List (String × JVal) := [("b", .num 2), ("a", .num 1)]

def tsFieldsExA : List (String × JVal) :=
  [("updated_at", .str "2025-07-01T00:00:00Z"),
   ("gear", .obj [("countdown", .str "1h 0m 0s"), ("updated_at", .str "t1")])]

def tsFieldsExB : List (String × JVal) :=
  [("updated_at", .str "2025-07-01T00:05:00Z"),
   ("gear", .obj [("countdown", .str "1h 0m 0s"), ("updated_at", .str "t2")])]

/-! # Theorems -/

/-! ## Digest shape helpers -/

theorem wordHex_length (w : Nat) : (wordHex w).length = 8 := rfl

theorem sha256Hex_length (bs : List Nat) : (sha256Hex bs).length = 64 := by
  simp [sha256Hex, String.length_append, wordHex_length]

theorem hashData_length (v : JVal) : (hashData v).length = 64 :=
  sha256Hex_length _

theorem hashData_ne_empty (v : JVal) : hashData v ≠ "" := by
  intro h
  have h64 := hashData_length v
  rw [h] at h64
  simp [String.length] at h64

/-! ## C6: publisher retry policy -/

/-- C6. `postToFacebook` makes at most 3 attempts; the waits between
consecutive attempts are `2000 * 1, 2000 * 2, …` (linear backoff, one wait
after each failed non-final attempt); if all three attempts fail it
rethrows the last error instead of returning normally, and it returns
normally only when some attempt among the first three succeeded. -/
theorem postToFacebook_retry_spec (outcome : Nat → Bool) :
    (postToFacebook outcome).attempts ≤ 3 ∧
    (postToFacebook outcome).waits =
      (List.range ((postToFacebook outcome).attempts - 1)).map (fun i => 2000 * (i + 1)) ∧
    ((outcome 0 = false ∧ outcome 1 = false ∧ outcome 2 = false) →
      (postToFacebook outcome).throws = true) ∧
    ((postToFacebook outcome).throws = false → ∃ i, i < 3 ∧ outcome i = true) := by
  cases h0 : outcome 0 <;> cases h1 : outcome 1 <;> cases h2 : outcome 2 <;>
    simp [postToFacebook, postToFacebookLoop, h0, h1, h2, List.range_succ]
  · exact ⟨2, by omega, h2⟩
  · exact ⟨1, by omega, h1⟩
  · exact ⟨1, by omega, h1⟩
  · exact ⟨0, by omega, h0⟩
  · exact ⟨0, by omega, h0⟩
  · exact ⟨0, by omega, h0⟩
  · exact ⟨0, by omega, h0⟩

theorem postToFacebook_retry_spec_witness :
    (postToFacebook (fun _ => false)).throws = true ∧
    (postToFacebook (fun _ => false)).attempts ≤ 3 ∧
    (postToFacebook (fun _ => false)).waits = [2000, 4000] :=
  ⟨(postToFacebook_retry_spec (fun _ => false)).2.2.1 ⟨rfl, rfl, rfl⟩,
   (postToFacebook_retry_spec (fun _ => false)).1, by decide⟩

/-! ## C4 and C8: delay to the next 5-minute boundary -/

/-- C4 counterexample. The claim asserts that at wall-clock time
12:03:27.500 the function returns 92500 ms. Because the locale-string
round-trip drops milliseconds, the code returns 93000 ms. -/
theorem delay_milliseconds_counterexample :
    getDelayToNext5MinutePH 3 27 500 = 93000 ∧ (93000 : Int) ≠ 92500 := by
  constructor <;> decide

/-- C4 (amended). For every wall-clock time, `getDelayToNext5MinutePH`
returns the exact duration from the current whole second (milliseconds
are discarded by the locale-string round-trip) to the next 5-minute
boundary, and is independent of the true millisecond component. -/
theorem delay_to_next_boundary (hours minutes seconds msTrue : Nat)
    (hm : minutes < 60) (hs : seconds < 60) :
    getDelayToNext5MinutePH minutes seconds msTrue =
      300000 - ((((hours * 60 + minutes) * 60 + seconds) * 1000 : Int) % 300000) ∧
    getDelayToNext5MinutePH minutes seconds msTrue =
      getDelayToNext5MinutePH minutes seconds 0 := by
  unfold getDelayToNext5MinutePH
  constructor
  · push_cast
    omega
  · rfl

theorem delay_to_next_boundary_witness :
    getDelayToNext5MinutePH 3 27 500 =
      300000 - ((((12 * 60 + 3) * 60 + 27) * 1000 : Int) % 300000) :=
  (delay_to_next_boundary 12 3 27 500 (by decide) (by decide)).1

/-- C8. The returned delay is strictly positive and at most 300000 ms
(one 5-minute interval), so the `delay === 0` fallback branch of the
guarded variants never fires and both variants agree everywhere. -/
theorem delay_positive_bounded (minutes seconds msTrue : Nat)
    (hm : minutes < 60) (hs : seconds < 60) :
    0 < getDelayToNext5MinutePH minutes seconds msTrue ∧
    getDelayToNext5MinutePH minutes seconds msTrue ≤ 300000 ∧
    getDelayToNext5MinutePHGuarded minutes seconds msTrue =
      getDelayToNext5MinutePH minutes seconds msTrue := by
  unfold getDelayToNext5MinutePH getDelayToNext5MinutePHGuarded
  push_cast
  refine ⟨by omega, by omega, ?_⟩
  rw [if_neg (by omega)]
  ring

theorem delay_positive_bounded_witness :
    0 < getDelayToNext5MinutePH 3 27 500 ∧
    getDelayToNext5MinutePHGuarded 3 27 500 = getDelayToNext5MinutePH 3 27 500 :=
  ⟨(delay_positive_bounded 3 27 500 (by decide) (by decide)).1,
   (delay_positive_bounded 3 27 500 (by decide) (by decide)).2.2⟩

/-! ## C1: fingerprint store across publish failure -/

/-- C1. In the `src/index.js` variant the store is untouched when every
publish attempt fails (the rethrown error skips `saveHash`), but in the
`part_001`/`part_003` HTTP variant `postToFacebook` swallows its error
and `checkAndPost` saves the new digest even though the outbound post
failed, so the same content will NOT be detected as changed and retried
on the next cycle. -/
theorem publish_failure_store_behavior :
    (checkAndPostWS (.ok exStockA) .null false true true (fun _ => false) (some "prev")).store
        = some "prev" ∧
    (checkAndPostWS (.ok exStockA) .null false true true (fun _ => false) (some "prev")).composed
        = true ∧
    (checkAndPostHTTP (.ok exStockA) true true false (some "prev")).postSucceeded = false ∧
    (checkAndPostHTTP (.ok exStockA) true true false (some "prev")).store ≠ some "prev" ∧
    (checkAndPostHTTP (.ok exStockA) true true false (some "prev")).store
        = some (hashData (cleanStockForHashing exStockA)) := by
  refine ⟨?_, ?_, ?_, ?_, ?_⟩ <;> decide

/-! ## C2: change detection -/

/-- C2. The `src/index.js` cycle composes and publishes exactly when the
computed digest differs from the persisted one; a cycle whose digest
equals the stored hash returns before composing and leaves the store
untouched; and an absent or empty hash file (where `loadHash` yields the
empty string) always counts as changed, because a SHA-256 hex digest is
never the empty string — so the first observed snapshot always triggers a
publish. -/
theorem change_detection_spec (stock weather : JVal) (store : Option String)
    (tokenThrows tokenOk hasImage : Bool) (outcome : Nat → Bool) :
    ((checkAndPostWS (.ok stock) weather tokenThrows tokenOk hasImage outcome store).composed = true
        ↔ hashData (.obj [("stock", stock), ("weather", weather)]) ≠ loadHash store) ∧
    (loadHash store = "" →
      (checkAndPostWS (.ok stock) weather tokenThrows tokenOk hasImage outcome store).composed
        = true) ∧
    (hashData (.obj [("stock", stock), ("weather", weather)]) = loadHash store →
      checkAndPostWS (.ok stock) weather tokenThrows tokenOk hasImage outcome store
        = ⟨false, false, store⟩) := by
  by_cases hEq : hashData (.obj [("stock", stock), ("weather", weather)]) = loadHash store
  · exact ⟨by simp [checkAndPostWS, hEq],
      fun hEmp => absurd (hEq.trans hEmp) (hashData_ne_empty _),
      fun _ => by simp [checkAndPostWS, hEq]⟩
  · cases tokenThrows <;> cases tokenOk <;> cases hasImage <;>
      cases hFB : (postToFacebook outcome).throws <;>
      simp [checkAndPostWS, hEq, hFB]

theorem change_detection_spec_witness :
    (checkAndPostWS (.ok (.obj [])) .null false true true (fun _ => true) none).composed = true :=
  (change_detection_spec (.obj []) .null none false true true (fun _ => true)).2.1 rfl

/-! ## C5: adaptive next-check interval -/

theorem minList_foldl_mem (x : Int) (xs : List Int) : xs.foldl min x ∈ x :: xs := by
  induction xs generalizing x with
  | nil => simp
  | cons y ys ih =>
    simp only [List.foldl_cons]
    rcases List.mem_cons.mp (ih (min x y)) with h1 | h1
    · rcases min_choice x y with hm | hm
      · rw [h1, hm]; exact List.mem_cons_self _ _
      · rw [h1, hm]; exact List.mem_cons_of_mem _ (List.mem_cons_self _ _)
    · exact List.mem_cons_of_mem _ (List.mem_cons_of_mem _ h1)

theorem minList_mem_of_ne_nil (l : List Int) (h : l ≠ []) : minList l ∈ l := by
  obtain ⟨y, ys, rfl⟩ := List.exists_cons_of_ne_nil h
  simpa [minList] using minList_foldl_mem y ys

theorem positiveCountdowns_pos (stock : JVal) :
    ∀ x ∈ positiveCountdowns stock, 0 < x := by
  intro x hx
  exact of_decide_eq_true (List.mem_filter.mp hx).2

/-- C5 counterexample, refuting both components of the claim. First,
when every parsed countdown is expired the cycle returns 1000 ms
immediately and skips the hash-compare-and-publish work entirely, even
though the fetched content differs from the stored hash — contradicting
"the cycle's hash-compare-and-publish work still runs regardless of the
countdown values". Second, on a mixed snapshot (egg countdown expired,
gear countdown one hour) the cycle's delay is 3601000 ms, whereas the
claimed formula — the minimum over the per-category countdown durations
(here `min 0 3600000 = 0`) plus the 1000 ms margin, clamped to at least
1000 ms — predicts 1000 ms: the code filters out the non-positive
countdowns before taking the minimum. -/
theorem adaptive_schedule_counterexample :
    (checkAndPostHTTP (.ok exStockExpired) true true true (some "prev") =
        ⟨1000, false, false, some "prev"⟩ ∧
      hashData (cleanStockForHashing exStockExpired) ≠ loadHash (some "prev")) ∧
    ((checkAndPostHTTP (.ok exStockMixed) true true true (some "prev")).interval = 3601000 ∧
      minList (categoryCountdowns exStockMixed) + 1000 = 1000 ∧
      max 1000 (minList (categoryCountdowns exStockMixed) + 1000) = 1000 ∧
      (3601000 : Int) ≠ 1000) := by
  refine ⟨⟨?_, ?_⟩, ?_, ?_, ?_, ?_⟩ <;> decide

/-- C5 (amended). After a successful fetch: when at least one
per-category countdown parses to a positive duration, the returned delay
is the minimum of the positive parsed countdowns plus a 1000 ms margin
and the hash-compare (and, on change, publish) work runs; when every
parsed countdown is zero or missing, the cycle instead returns 1000 ms
immediately, skipping the compare/publish work for that cycle. In both
cases the returned delay is at least 1000 ms. -/
theorem adaptive_schedule_spec (stock : JVal) (store : Option String)
    (tokenOk hasImage postOk : Bool) :
    (positiveCountdowns stock = [] →
      checkAndPostHTTP (.ok stock) tokenOk hasImage postOk store
        = ⟨1000, false, false, store⟩) ∧
    (positiveCountdowns stock ≠ [] →
      (checkAndPostHTTP (.ok stock) tokenOk hasImage postOk store).interval
          = minList (positiveCountdowns stock) + 1000 ∧
      ((checkAndPostHTTP (.ok stock) tokenOk hasImage postOk store).attempted = true
          ↔ hashData (cleanStockForHashing stock) ≠ loadHash store)) ∧
    1000 ≤ (checkAndPostHTTP (.ok stock) tokenOk hasImage postOk store).interval := by
  by_cases hemp : positiveCountdowns stock = []
  · refine ⟨fun _ => by simp [checkAndPostHTTP, hemp], fun h => absurd hemp h, ?_⟩
    simp [checkAndPostHTTP, hemp]
  · have h1 : 0 < minList (positiveCountdowns stock) :=
      positiveCountdowns_pos stock _ (minList_mem_of_ne_nil _ hemp)
    have hne : (positiveCountdowns stock).isEmpty = false := by
      simp [List.isEmpty_iff, hemp]
    refine ⟨fun h => absurd h hemp, fun _ => ?_, ?_⟩
    · by_cases hhash : hashData (cleanStockForHashing stock) = loadHash store <;>
        simp [checkAndPostHTTP, hne, hhash]
    · by_cases hhash : hashData (cleanStockForHashing stock) = loadHash store <;>
        simp [checkAndPostHTTP, hne, hhash] <;> omega

theorem adaptive_schedule_spec_witness :
    checkAndPostHTTP (.ok exStockExpired) true true true none
        = ⟨1000, false, false, none⟩ ∧
    (checkAndPostHTTP (.ok exStockA) true true true none).interval
        = minList (positiveCountdowns exStockA) + 1000 :=
  ⟨(adaptive_schedule_spec exStockExpired none true true true).1 (by decide),
   ((adaptive_schedule_spec exStockA none true true true).2.1 (by decide)).1⟩

/-! ## C3: fingerprint invariance -/

theorem removeUpdatedAt_eq_of_tsFields2 :
    ∀ fs fs' : List (String × JVal), tsFields2 fs fs' →
      removeUpdatedAt fs = removeUpdatedAt fs'
  | [], [], _ => rfl
  | [], (_, _) :: _, h => by simp [tsFields2] at h
  | (_, _) :: _, [], h => by simp [tsFields2] at h
  | (k, v) :: fs, (k', v') :: fs', h => by
    obtain ⟨hk, hv, ht⟩ := h
    subst hk
    have ih := removeUpdatedAt_eq_of_tsFields2 fs fs' ht
    by_cases hku : k = "updated_at"
    · simp only [removeUpdatedAt, List.filter_cons, hku, bne_self_eq_false] at ih ⊢
      simpa [removeUpdatedAt] using ih
    · have hvv : v = v' := hv.resolve_left hku
      subst hvv
      simp only [removeUpdatedAt, List.filter_cons] at ih ⊢
      rw [ih]

theorem cleanValue_eq_of_tsValue :
    ∀ v v' : JVal, tsValue v v' → cleanValue v = cleanValue v'
  | .obj g, .obj g', h => congrArg JVal.obj (removeUpdatedAt_eq_of_tsFields2 g g' h)
  | .null, b, h => congrArg cleanValue (show JVal.null = b from h)
  | .bool x, b, h => congrArg cleanValue (show JVal.bool x = b from h)
  | .num x, b, h => congrArg cleanValue (show JVal.num x = b from h)
  | .str x, b, h => congrArg cleanValue (show JVal.str x = b from h)
  | .arr x, b, h => congrArg cleanValue (show JVal.arr x = b from h)
  | .obj g, .null, h => congrArg cleanValue (show JVal.obj g = .null from h)
  | .obj g, .bool x, h => congrArg cleanValue (show JVal.obj g = .bool x from h)
  | .obj g, .num x, h => congrArg cleanValue (show JVal.obj g = .num x from h)
  | .obj g, .str x, h => congrArg cleanValue (show JVal.obj g = .str x from h)
  | .obj g, .arr x, h => congrArg cleanValue (show JVal.obj g = .arr x from h)

theorem cleanFields_eq_of_tsFields1 :
    ∀ fs fs' : List (String × JVal), tsFields1 fs fs' →
      (removeUpdatedAt fs).map (fun p => (p.1, cleanValue p.2)) =
        (removeUpdatedAt fs').map (fun p => (p.1, cleanValue p.2))
  | [], [], _ => rfl
  | [], (_, _) :: _, h => by simp [tsFields1] at h
  | (_, _) :: _, [], h => by simp [tsFields1] at h
  | (k, v) :: fs, (k', v') :: fs', h => by
    obtain ⟨hk, hv, ht⟩ := h
    subst hk
    have ih := cleanFields_eq_of_tsFields1 fs fs' ht
    by_cases hku : k = "updated_at"
    · simpa only [removeUpdatedAt, List.filter_cons, hku, bne_self_eq_false] using ih
    · have hvv : cleanValue v = cleanValue v' :=
        cleanValue_eq_of_tsValue v v' (hv.resolve_left hku)
      simp only [removeUpdatedAt, List.filter_cons] at ih ⊢
      by_cases hb : (k != "updated_at") = true
      · simp only [hb, if_pos, List.map_cons, ih, hvv]
      · simp only [hb, if_neg, ih]
        exact ih

/-- C3 (amended). Two snapshots whose fields agree up to the values of
the top-level and per-category `updated_at` keys — same remaining keys in
the same order — produce identical fingerprints. (Key-order invariance
fails; see the counterexample.) -/
theorem fingerprint_timestamp_invariant (fs fs' : List (String × JVal))
    (h : tsFields1 fs fs') :
    hashData (cleanStockForHashing (.obj fs)) =
      hashData (cleanStockForHashing (.obj fs')) := by
  have hclean : cleanStockForHashing (.obj fs) = cleanStockForHashing (.obj fs') := by
    simp only [cleanStockForHashing]
    exact congrArg JVal.obj (cleanFields_eq_of_tsFields1 fs fs' h)
  rw [hclean]

theorem fingerprint_timestamp_invariant_witness :
    hashData (cleanStockForHashing (.obj tsFieldsExA)) =
      hashData (cleanStockForHashing (.obj tsFieldsExB)) :=
  fingerprint_timestamp_invariant tsFieldsExA tsFieldsExB
    ⟨rfl, Or.inl rfl, rfl,
     Or.inr ⟨rfl, Or.inr rfl, rfl, Or.inl rfl, True.intro⟩, True.intro⟩

/-! ## C9: `parseCountdown` totality and correctness -/

theorem takeWhile_all_append {p : Char → Bool} :
    ∀ ds rest : List Char, (∀ c ∈ ds, p c = true) →
      (∀ c, rest.head? = some c → p c = false) →
      (ds ++ rest).takeWhile p = ds ∧ (ds ++ rest).dropWhile p = rest := by
  intro ds
  induction ds with
  | nil =>
    intro rest _ hrest
    cases rest with
    | nil => simp
    | cons c cs =>
      have hc := hrest c rfl
      simp [List.takeWhile_cons, List.dropWhile_cons, hc]
  | cons d ds ih =>
    intro rest hall hrest
    have hd : p d = true := hall d (List.mem_cons_self _ _)
    have ihh := ih rest (fun c hc => hall c (List.mem_cons_of_mem _ hc)) hrest
    simp [List.takeWhile_cons, List.dropWhile_cons, hd, ihh.1, ihh.2]

theorem head_cond {p : Char → Bool} {c : Char} (l : List Char) (h : p c = false) :
    ∀ c', (c :: l).head? = some c' → p c' = false := by
  intro c' hc'
  simp only [List.head?_cons, Option.some.injEq] at hc'
  rwa [← hc']

theorem isSpaceJS_of_digit (c : Char) (h : isDigitChar c = true) : isSpaceJS c = false := by
  simp only [isDigitChar, Bool.and_eq_true, decide_eq_true_eq] at h
  simp only [isSpaceJS, Bool.or_eq_false_iff, decide_eq_false_iff_not]
  omega

theorem tryMatchAt_canonical (d1 d2 d3 : List Char)
    (h1 : d1 ≠ []) (h2 : d2 ≠ []) (h3 : d3 ≠ [])
    (a1 : ∀ c ∈ d1, isDigitChar c = true)
    (a2 : ∀ c ∈ d2, isDigitChar c = true)
    (a3 : ∀ c ∈ d3, isDigitChar c = true) :
    tryMatchAt (d1 ++ 'h' :: ' ' :: (d2 ++ 'm' :: ' ' :: (d3 ++ ['s']))) =
      some (digitsToNat d1, digitsToNat d2, digitsToNat d3) := by
  obtain ⟨e2, t2, rfl⟩ := List.exists_cons_of_ne_nil h2
  obtain ⟨e3, t3, rfl⟩ := List.exists_cons_of_ne_nil h3
  have he2 : isDigitChar e2 = true := a2 e2 (List.mem_cons_self _ _)
  have he3 : isDigitChar e3 = true := a3 e3 (List.mem_cons_self _ _)
  have s1 := takeWhile_all_append (p := isDigitChar)
    d1 ('h' :: ' ' :: (e2 :: t2 ++ 'm' :: ' ' :: (e3 :: t3 ++ ['s'])))
    a1 (head_cond _ (by decide))
  have sp1 := takeWhile_all_append (p := isSpaceJS)
    [' '] (e2 :: (t2 ++ 'm' :: ' ' :: (e3 :: t3 ++ ['s'])))
    (by decide) (head_cond _ (isSpaceJS_of_digit e2 he2))
  have sD2 := takeWhile_all_append (p := isDigitChar)
    (e2 :: t2) ('m' :: ' ' :: (e3 :: t3 ++ ['s']))
    a2 (head_cond _ (by decide))
  have sp2 := takeWhile_all_append (p := isSpaceJS)
    [' '] (e3 :: (t3 ++ ['s']))
    (by decide) (head_cond _ (isSpaceJS_of_digit e3 he3))
  have sD3 := takeWhile_all_append (p := isDigitChar)
    (e3 :: t3) (['s'])
    a3 (head_cond _ (by decide))
  have hd1e : d1.isEmpty = false := by simp [List.isEmpty_iff, h1]
  simp only [List.cons_append, List.singleton_append, List.nil_append] at s1 sp1 sD2 sp2 sD3 ⊢
  simp [tryMatchAt, s1.1, s1.2, sp1.1, sp1.2, sD2.1, sD2.2, sp2.1, sp2.2, sD3.1, sD3.2, hd1e]

theorem findCountdown_of_tryMatchAt {cs : List Char} {r : Nat × Nat × Nat}
    (hne : cs ≠ []) (h : tryMatchAt cs = some r) : findCountdown cs = some r := by
  obtain ⟨c, l, rfl⟩ := List.exists_cons_of_ne_nil hne
  simp [findCountdown, h]

/-- C9. `parseCountdown` is total and non-negative: a missing (`none`,
i.e. `undefined`/`null`) or non-matching countdown parses to `0`, the
result is never negative, and a well-formed countdown built of digit
runs `XhY mZs` (numerals `X`, `Y`, `Z` separated by `h `, `m `, ending
`s`) parses to `(X * 3600 + Y * 60 + Z) * 1000` milliseconds. -/
theorem parseCountdown_spec :
    parseCountdown none = 0 ∧
    (∀ s : String, 0 ≤ parseCountdown (some s)) ∧
    (∀ s : String, findCountdown s.data = none → parseCountdown (some s) = 0) ∧
    (∀ d1 d2 d3 : List Char, d1 ≠ [] → d2 ≠ [] → d3 ≠ [] →
      (∀ c ∈ d1, isDigitChar c = true) → (∀ c ∈ d2, isDigitChar c = true) →
      (∀ c ∈ d3, isDigitChar c = true) →
      parseCountdown
          (some (String.mk (d1 ++ 'h' :: ' ' :: (d2 ++ 'm' :: ' ' :: (d3 ++ ['s']))))) =
        ((digitsToNat d1 * 3600 + digitsToNat d2 * 60 + digitsToNat d3) * 1000 : Nat)) := by
  refine ⟨rfl, ?_, ?_, ?_⟩
  · intro s
    rcases hf : findCountdown s.data with _ | ⟨x, y, z⟩ <;>
      simp [parseCountdown, hf]
    omega
  · intro s h
    simp [parseCountdown, h]
  · intro d1 d2 d3 h1 h2 h3 a1 a2 a3
    have hmat := tryMatchAt_canonical d1 d2 d3 h1 h2 h3 a1 a2 a3
    have hne : d1 ++ 'h' :: ' ' :: (d2 ++ 'm' :: ' ' :: (d3 ++ ['s'])) ≠ [] := by
      cases d1 <;> simp
    have hfind := findCountdown_of_tryMatchAt hne hmat
    simp [parseCountdown, hfind]

theorem parseCountdown_spec_witness :
    parseCountdown none = 0 ∧
    0 ≤ parseCountdown (some "garbage") ∧
    parseCountdown (some (String.mk (['2'] ++ 'h' :: ' ' :: (['1', '5'] ++ 'm' :: ' ' :: (['5', '9'] ++ ['s']))))) =
      ((digitsToNat ['2'] * 3600 + digitsToNat ['1', '5'] * 60 + digitsToNat ['5', '9']) * 1000 : Nat) :=
  ⟨parseCountdown_spec.1, parseCountdown_spec.2.1 "garbage",
   parseCountdown_spec.2.2.2 ['2'] ['1', '5'] ['5', '9']
     (by decide) (by decide) (by decide) (by decide) (by decide) (by decide)⟩

/-! ## C10: daily tip rotation -/

theorem getDailyTip_nil (rand : Nat → Nat) :
    ∀ (fuel : Nat) (used : List String), getDailyTip [] rand used fuel = none
  | 0, _ => rfl
  | fuel + 1, used => by
    simp [getDailyTip, getDailyTip_nil rand fuel []]

/-- C10. With a non-empty tips list, `getDailyTip` ends after at most one
recursive (reset) step and returns a tip from the list that is not in the
effective shown record for the day — the record as cleared by the reset,
which happens exactly when every tip is already used. With an empty tips
list the recursion never produces a value, whatever depth it is allowed
(the real code recurses forever). -/
theorem getDailyTip_spec (tips used : List String) (rand : Nat → Nat)
    (hrand : ∀ n, 0 < n → rand n < n) :
    (tips ≠ [] →
      ∃ sel,
        getDailyTip tips rand used 2 =
          some ("📌 " ++ sel,
            (if (tips.filter (fun tip => !(used.contains tip))).isEmpty then [] else used)
              ++ [sel]) ∧
        sel ∈ tips ∧
        sel ∉ (if (tips.filter (fun tip => !(used.contains tip))).isEmpty then ([] : List String)
               else used) ∧
        ((tips.filter (fun tip => !(used.contains tip))).isEmpty = true ↔
          ∀ t ∈ tips, t ∈ used)) ∧
    (tips = [] → ∀ fuel, getDailyTip tips rand used fuel = none) := by
  constructor
  · intro hne
    have hiff : (tips.filter (fun tip => !(used.contains tip))).isEmpty = true ↔
        ∀ t ∈ tips, t ∈ used := by
      simp [List.isEmpty_iff, List.filter_eq_nil_iff]
    by_cases hemp : (tips.filter (fun tip => !(used.contains tip))).isEmpty
    · -- all tips used today: the record is reset and the pick comes from all of `tips`
      have hfilter : tips.filter (fun tip => !(([] : List String).contains tip)) = tips := by
        simp
      have hlen : 0 < tips.length := List.length_pos.mpr hne
      have hidx : rand tips.length < tips.length := hrand _ hlen
      refine ⟨tips.getD (rand tips.length) "", ?_, ?_,
        by rw [if_pos hemp]; exact List.not_mem_nil _, hiff⟩
      · have hne' : tips.isEmpty = false := by simp [List.isEmpty_iff, hne]
        simp only [getDailyTip, hfilter, hne']
        rw [if_pos hemp, if_pos hemp]
        simp
      · rw [List.getD_eq_getElem tips "" hidx]
        exact List.getElem_mem _
    · -- at least one unused tip: pick from the filtered list, no reset
      have hnil : tips.filter (fun tip => !(used.contains tip)) ≠ [] := by
        simpa [List.isEmpty_iff] using hemp
      have hlen : 0 < (tips.filter (fun tip => !(used.contains tip))).length :=
        List.length_pos.mpr hnil
      have hidx := hrand _ hlen
      have hnall : ¬ ∀ t ∈ tips, t ∈ used := fun h => hemp (hiff.mpr h)
      refine ⟨(tips.filter (fun tip => !(used.contains tip))).getD
          (rand (tips.filter (fun tip => !(used.contains tip))).length) "", ?_, ?_, ?_, hiff⟩
      · simp [getDailyTip, hemp, hnall]
      · rw [List.getD_eq_getElem _ "" hidx]
        exact (List.mem_filter.mp (List.getElem_mem _)).1
      · rw [List.getD_eq_getElem _ "" hidx]
        have hkeep := (List.mem_filter.mp (List.getElem_mem hidx)).2
        rw [if_neg hemp]
        simp only [Bool.not_eq_true'] at hkeep
        simpa using hkeep
  · intro htips fuel
    subst htips
    exact getDailyTip_nil rand fuel used

theorem getDailyTip_spec_witness :
    ∃ sel,
      getDailyTip ["water daily", "prune weekly"] (fun _ => 0) ["water daily"] 2 =
        some ("📌 " ++ sel,
          (if ((["water daily", "prune weekly"] : List String).filter
                (fun tip => !(["water daily"].contains tip))).isEmpty then []
           else ["water daily"]) ++ [sel]) ∧
      sel ∈ (["water daily", "prune weekly"] : List String) ∧
      sel ∉ (if ((["water daily", "prune weekly"] : List String).filter
                (fun tip => !(["water daily"].contains tip))).isEmpty then ([] : List String)
             else ["water daily"]) ∧
      (((["water daily", "prune weekly"] : List String).filter
            (fun tip => !(["water daily"].contains tip))).isEmpty = true ↔
        ∀ t ∈ (["water daily", "prune weekly"] : List String), t ∈ (["water daily"] : List String)) :=
  (getDailyTip_spec ["water daily", "prune weekly"] ["water daily"] (fun _ => 0)
    (fun _ hn => hn)).1 (by decide)

/-- C3 counterexample. Two objects with identical content whose fields
are merely reordered (a permutation of each other) hash to different
digests: `JSON.stringify` preserves insertion order and
`cleanStockForHashing` does not sort keys. -/
theorem fingerprint_key_order_counterexample :
    permFieldsA.Perm permFieldsB ∧
    hashData (cleanStockForHashing (.obj permFieldsA)) ≠
      hashData (cleanStockForHashing (.obj permFieldsB)) := by
  constructor
  · exact List.Perm.swap _ _ _
  · decide
